import Mathlib

/-!
# Verification of the youqu-imagecenter-rpc matching engine

Shallow embedding of `src/youqu_imagecenter_rpc/__init__.py`.

The embedded code consists of two parts:

* `ImageCenterByRGB` — the local pixel matcher: `_check_match`,
  `_pre_random_point`, `_pre_random_match` and `image_center_by_rgb`.
  Images are modelled by `Img` (width, height, and a pixel lookup
  function); Python float ratios are modelled by `ℚ`; the pseudo-random
  source consumed by `random.randrange` is modelled by an explicit
  stream `rng : ℕ → ℕ` of raw draws, reduced into the requested range
  exactly as `randrange` guarantees (`randrange lo hi` yields a value in
  `[lo, hi)`).

* `ImageCenter.find_image` — the polling controller.  The remote
  matching call `_match_image_by_opencv` (one screen capture plus one
  match per invocation) is modelled by an oracle
  `m : String → ℚ → ℕ → Option Point`; the wall-clock timeout test
  performed after an unsuccessful attempt is modelled by an oracle
  `tmo : String → ℕ → Bool`.  The function returns the Python result
  (`Except`: a found point, the `ValueError` for a negative retry count,
  or `TemplateElementNotFound` carrying the template names) paired with
  the number of matcher invocations performed.
-/

namespace YouquImageCenter

/-- An RGB pixel value, as returned by PIL pixel access. -/
abbrev Pixel := ℕ × ℕ × ℕ

/-- A decoded raster image: a width, a height, and pixel lookup.
`pix x y` is the pixel at column `x`, row `y` (the PIL access
`data[x, y]`). -/
structure Img where
  width : ℕ
  height : ℕ
  pix : ℕ → ℕ → Pixel

/-- The similarity ratio `same / (same + diff)` computed by both phases
of the matcher (Python true division of the two counters). -/
def similarity (same diff : ℕ) : ℚ :=
  (same : ℚ) / ((same : ℚ) + (diff : ℚ))

/-- The grid of template offsets `(i, j)` traversed by the nested loops
`for i in range(small.width): for j in range(small.height)` of
`_check_match`, in loop order. -/
def match_pairs (small : Img) : List (ℕ × ℕ) :=
  (List.range small.width).flatMap fun i =>
    (List.range small.height).map fun j => (i, j)

/-- The `same` counter of `_check_match`: the number of grid offsets at
which the big image agrees with the small one. -/
def check_same (x y : ℕ) (small : Img) (bdata sdata : ℕ → ℕ → Pixel) : ℕ :=
  (match_pairs small).countP fun q => bdata (x + q.1) (y + q.2) == sdata q.1 q.2

/-- The `diff` counter of `_check_match`. -/
def check_diff (x y : ℕ) (small : Img) (bdata sdata : ℕ → ℕ → Pixel) : ℕ :=
  (match_pairs small).countP fun q => !(bdata (x + q.1) (y + q.2) == sdata q.1 q.2)

/-- Python `ImageCenterByRGB._check_match(_x, _y, small, bdata, sdata, rate)`:
full verification of a placement, `same / (same + diff) >= rate` over
every template pixel. -/
def check_match (x y : ℕ) (small : Img) (bdata sdata : ℕ → ℕ → Pixel)
    (rate : ℚ) : Bool :=
  decide (similarity (check_same x y small bdata sdata)
    (check_diff x y small bdata sdata) ≥ rate)

/-- Python `random.randrange(lo, hi)`: the raw draw `r` of the underlying
pseudo-random source reduced into the half-open range `[lo, hi)`. -/
def randrange (lo hi : ℕ) (r : ℕ) : ℕ :=
  lo + r % (hi - lo)

/-- Python `ImageCenterByRGB._pre_random_point(small)`: draw a count in
`[10, 20)`, then that many sample points, each with an x-draw in
`[0, small.width)` and a y-draw in `[0, small.height)`, in order.
The draws consume the random stream `rng` sequentially: draw `0` is the
count, draws `2*k+1` and `2*k+2` are the coordinates of point `k`. -/
def pre_random_point (small : Img) (rng : ℕ → ℕ) : List (ℕ × ℕ) :=
  let count := randrange 10 20 (rng 0)
  (List.range count).map fun k =>
    (randrange 0 small.width (rng (2 * k + 1)),
     randrange 0 small.height (rng (2 * k + 2)))

/-- The `same` counter of `_pre_random_match`. -/
def pre_same (x y : ℕ) (point_list : List (ℕ × ℕ))
    (bdata sdata : ℕ → ℕ → Pixel) : ℕ :=
  point_list.countP fun q => bdata (x + q.1) (y + q.2) == sdata q.1 q.2

/-- The `diff` counter of `_pre_random_match`. -/
def pre_diff (x y : ℕ) (point_list : List (ℕ × ℕ))
    (bdata sdata : ℕ → ℕ → Pixel) : ℕ :=
  point_list.countP fun q => !(bdata (x + q.1) (y + q.2) == sdata q.1 q.2)

/-- Python `ImageCenterByRGB._pre_random_match(_x, _y, point_list, bdata, sdata,
rate)`: the randomized pre-filter, `same / (same + diff) >= rate` over the
sampled points only. -/
def pre_random_match (x y : ℕ) (point_list : List (ℕ × ℕ))
    (bdata sdata : ℕ → ℕ → Pixel) (rate : ℚ) : Bool :=
  decide (similarity (pre_same x y point_list bdata sdata)
    (pre_diff x y point_list bdata sdata) ≥ rate)

/-- The list of candidate top-left placements `(x, y)` visited by the
scan `for _x in range(big.width - small.width): for _y in
range(big.height - small.height)`, in visit order (x-major, y-minor). -/
def candidates (small big : Img) : List (ℕ × ℕ) :=
  (List.range (big.width - small.width)).flatMap fun x =>
    (List.range (big.height - small.height)).map fun y => (x, y)

/-- A placement passes both phases: the pre-filter and then the full
verification (the nested `if` in `image_center_by_rgb`). -/
def accept (small big : Img) (point_list : List (ℕ × ℕ)) (rate : ℚ)
    (p : ℕ × ℕ) : Bool :=
  pre_random_match p.1 p.2 point_list big.pix small.pix rate &&
    check_match p.1 p.2 small big.pix small.pix rate

/-- The returned center of an accepted placement:
`(int(_x + small.width / 2), int(_y + small.height / 2))`, with the
float half-extent truncated to an integer. -/
def center (small : Img) (p : ℕ × ℕ) : ℕ × ℕ :=
  (p.1 + small.width / 2, p.2 + small.height / 2)

/-- The scan of `image_center_by_rgb` with the sample point list held
fixed: nested loops over `x` then `y`, returning at the first placement
that passes the pre-filter and then the full verification. -/
def scan_first (small big : Img) (point_list : List (ℕ × ℕ))
    (rate : ℚ) : Option (ℕ × ℕ) :=
  (List.range (big.width - small.width)).findSome? fun x =>
    (List.range (big.height - small.height)).findSome? fun y =>
      if pre_random_match x y point_list big.pix small.pix rate then
        if check_match x y small big.pix small.pix rate then
          some (x + small.width / 2, y + small.height / 2)
        else none
      else none

/-- Python `ImageCenterByRGB.image_center_by_rgb`: generate the sample point
list once, then scan; Python returns `False` (here `none`) when no
placement passes. The template (`small`, from the opened file) and the
screen (`big`, from `pyscreenshot.grab()`) are parameters of the model. -/
def image_center_by_rgb (small big : Img) (rate : ℚ) (rng : ℕ → ℕ) :
    Option (ℕ × ℕ) :=
  let point_list := pre_random_point small rng
  (List.range (big.width - small.width)).findSome? fun x =>
    (List.range (big.height - small.height)).findSome? fun y =>
      if pre_random_match x y point_list big.pix small.pix rate then
        if check_match x y small big.pix small.pix rate then
          some (x + small.width / 2, y + small.height / 2)
        else none
      else none

/-- The template is pixel-identical to the screen region at placement
`(x, y)`: every template offset agrees. -/
def identical_at (x y : ℕ) (small big : Img) : Bool :=
  (match_pairs small).all fun q => big.pix (x + q.1) (y + q.2) == small.pix q.1 q.2

/-- Modelled from the spec: the source function `image_center_by_rgb` has no
`multiple` flag — multiple-match handling is only reachable through the
remote `match_image_by_opencv` service, whose implementation is not in
this source tree.  Per the spec (§4.3): "If `multiple` is requested,
continue scanning and collect all accepted centers instead of returning
early."  The scan order and the two-phase acceptance test are those of
`image_center_by_rgb`. -/
def image_center_by_rgb_multiple (small big : Img)
    (point_list : List (ℕ × ℕ)) (rate : ℚ) : List (ℕ × ℕ) :=
  (List.range (big.width - small.width)).flatMap fun x =>
    (List.range (big.height - small.height)).filterMap fun y =>
      if pre_random_match x y point_list big.pix small.pix rate then
        if check_match x y small big.pix small.pix rate then
          some (x + small.width / 2, y + small.height / 2)
        else none
      else none

/-! ## The polling controller `ImageCenter.find_image` -/

/-- A screen coordinate returned by a matching attempt. -/
abbrev Point := ℕ × ℕ

/-- Modelled from the spec: the configuration collaborator (`conf`, not
in this source tree) supplies the default retry count
(`conf.MAX_MATCH_NUMBER`) and the default similarity rate
(`conf.IMAGE_RATE`) used when the caller does not override them. -/
structure PollConf where
  max_match_number : ℕ
  image_rate : ℚ

/-- The errors `find_image` can raise: the `ValueError` for a negative
retry count, and `TemplateElementNotFound`, whose arguments carry the
name of every template attempted. -/
inductive FindImageError where
  | valueError : FindImageError
  | templateElementNotFound : List String → FindImageError
deriving DecidableEq

/-- The inner retry loop `for _ in range(retry_number + 1)` of
`find_image` for one template: `m k` is the result of the `k`-th
matcher invocation (one screen capture plus one remote match), `tmo k`
tells whether the elapsed-time check after unsuccessful attempt `k`
exceeds the timeout.  Returns the located point (if any) and the number
of matcher invocations performed. -/
def match_attempts (m : ℕ → Option Point) (tmo : ℕ → Bool) :
    ℕ → ℕ → Option Point × ℕ
  | 0, _ => (none, 0)
  | fuel + 1, k =>
    match m k with
    | some p => (some p, 1)
    | none =>
      if tmo k then (none, 1)
      else
        let r := match_attempts m tmo fuel (k + 1)
        (r.1, r.2 + 1)

/-- The outer loop `for element in widget` of `find_image`: templates
are tried in order, returning the first located point; the invocation
counts of all templates tried are summed. -/
def find_image_templates (m : String → ℕ → Option Point)
    (tmo : String → ℕ → Bool) (fuel : ℕ) :
    List String → Option Point × ℕ
  | [] => (none, 0)
  | w :: ws =>
    let r := match_attempts (m w) (tmo w) fuel 0
    match r.1 with
    | some p => (some p, r.2)
    | none =>
      let rest := find_image_templates m tmo fuel ws
      (rest.1, r.2 + rest.2)

/-- The retry count actually used by `find_image`:
`max_match_number if max_match_number else conf.MAX_MATCH_NUMBER`.
A caller-supplied value is kept only when it is truthy (nonzero);
both `None` and `0` select the configured default. -/
def effective_retry (max_match_number : Option ℤ) (cf : PollConf) : ℤ :=
  match max_match_number with
  | none => (cf.max_match_number : ℤ)
  | some v => if v = 0 then (cf.max_match_number : ℤ) else v

/-- Python `ImageCenter.find_image`: resolve the retry count, reject a negative
one with `ValueError` before any matching attempt, resolve the rate
(`conf.IMAGE_RATE` only when `None`), then poll each template up to
`retry_number + 1` times and raise `TemplateElementNotFound` over all
templates when every one is exhausted.  The second component counts
matcher invocations (each performs one screen capture). -/
def find_image (m : String → ℚ → ℕ → Option Point)
    (tmo : String → ℕ → Bool) (widget : List String) (rate : Option ℚ)
    (max_match_number : Option ℤ) (cf : PollConf) :
    Except FindImageError Point × ℕ :=
  let retry_number := effective_retry max_match_number cf
  if retry_number < 0 then (Except.error FindImageError.valueError, 0)
  else
    let r := rate.getD cf.image_rate
    let res := find_image_templates (fun w k => m w r k) tmo
      (retry_number.toNat + 1) widget
    match res.1 with
    | some p => (Except.ok p, res.2)
    | none => (Except.error (FindImageError.templateElementNotFound widget), res.2)

/-! ## Helper lemmas -/

theorem countP_not_add {α : Type} (p : α → Bool) (l : List α) :
    l.countP p + l.countP (fun a => !(p a)) = l.length := by
  induction l with
  | nil => rfl
  | cons a l ih =>
    rw [List.countP_cons, List.countP_cons, List.length_cons]
    cases h : p a <;> simp [h] <;> omega

theorem match_pairs_length (small : Img) :
    (match_pairs small).length = small.width * small.height := by
  rw [match_pairs, List.length_flatMap]
  have h : List.map (List.length ∘ fun i =>
      (List.range small.height).map fun j => (i, j)) (List.range small.width) =
      List.map (fun _ => small.height) (List.range small.width) := by
    refine List.map_congr_left fun i _ => ?_
    simp
  rw [h]
  induction small.width with
  | zero => simp
  | succ w ih => rw [List.range_succ, List.map_append, List.sum_append]; simp [ih]; ring

theorem mem_match_pairs {small : Img} {q : ℕ × ℕ} :
    q ∈ match_pairs small ↔ q.1 < small.width ∧ q.2 < small.height := by
  simp only [match_pairs, List.mem_flatMap, List.mem_map, List.mem_range]
  constructor
  · rintro ⟨i, hi, j, hj, rfl⟩; exact ⟨hi, hj⟩
  · rintro ⟨h1, h2⟩; exact ⟨q.1, h1, q.2, h2, rfl⟩

theorem check_counts (x y : ℕ) (small : Img) (bdata sdata : ℕ → ℕ → Pixel) :
    check_same x y small bdata sdata + check_diff x y small bdata sdata =
      small.width * small.height := by
  rw [check_same, check_diff, countP_not_add, match_pairs_length]

theorem pre_counts (x y : ℕ) (point_list : List (ℕ × ℕ))
    (bdata sdata : ℕ → ℕ → Pixel) :
    pre_same x y point_list bdata sdata + pre_diff x y point_list bdata sdata =
      point_list.length := by
  rw [pre_same, pre_diff, countP_not_add]

theorem similarity_nonneg (same diff : ℕ) : 0 ≤ similarity same diff := by
  apply div_nonneg
  · exact Nat.cast_nonneg same
  · positivity

theorem similarity_le_one (same diff : ℕ) : similarity same diff ≤ 1 := by
  rcases Nat.eq_zero_or_pos (same + diff) with h | h
  · have hs : same = 0 := by omega
    have hd : diff = 0 := by omega
    simp [similarity, hs, hd]
  · have hpos : (0:ℚ) < (same : ℚ) + (diff : ℚ) := by
      have : (0:ℚ) < ((same + diff : ℕ) : ℚ) := by exact_mod_cast h
      push_cast at this
      linarith
    rw [similarity, div_le_one hpos]
    have : (same : ℚ) ≤ (same : ℚ) + (diff : ℚ) := by
      have : (0:ℚ) ≤ (diff : ℚ) := Nat.cast_nonneg diff
      linarith
    exact this

theorem one_le_similarity_iff {same diff : ℕ} (h : 0 < same + diff) :
    1 ≤ similarity same diff ↔ diff = 0 := by
  have hpos : (0:ℚ) < (same : ℚ) + (diff : ℚ) := by
    have : (0:ℚ) < ((same + diff : ℕ) : ℚ) := by exact_mod_cast h
    push_cast at this
    linarith
  rw [similarity, one_le_div hpos]
  constructor
  · intro hle
    have : (diff : ℚ) ≤ 0 := by linarith
    have : diff ≤ 0 := by exact_mod_cast this
    omega
  · intro hd
    subst hd
    simp

theorem identical_iff_diff_zero (x y : ℕ) (small big : Img) :
    check_diff x y small big.pix small.pix = 0 ↔
      identical_at x y small big = true := by
  rw [check_diff, List.countP_eq_zero, identical_at, List.all_eq_true]
  constructor
  · intro h q hq
    have := h q hq
    simpa using this
  · intro h q hq
    have := h q hq
    simp [this]

theorem check_match_one_iff (x y : ℕ) (small big : Img)
    (h1 : 1 ≤ small.width) (h2 : 1 ≤ small.height) :
    check_match x y small big.pix small.pix 1 = true ↔
      identical_at x y small big = true := by
  have hd : 0 < check_same x y small big.pix small.pix +
      check_diff x y small big.pix small.pix := by
    rw [check_counts]
    exact Nat.mul_pos h1 h2
  rw [check_match, decide_eq_true_iff, ge_iff_le, one_le_similarity_iff hd,
    identical_iff_diff_zero]

theorem pre_random_match_one_of_identical (x y : ℕ)
    (point_list : List (ℕ × ℕ)) (small big : Img)
    (hb : ∀ q ∈ point_list, q.1 < small.width ∧ q.2 < small.height)
    (hne : point_list ≠ [])
    (hid : identical_at x y small big = true) :
    pre_random_match x y point_list big.pix small.pix 1 = true := by
  have hdiff : pre_diff x y point_list big.pix small.pix = 0 := by
    rw [pre_diff, List.countP_eq_zero]
    intro q hq
    have hq' : q ∈ match_pairs small := mem_match_pairs.mpr (hb q hq)
    rw [identical_at, List.all_eq_true] at hid
    have := hid q hq'
    simp [this]
  have hd : 0 < pre_same x y point_list big.pix small.pix +
      pre_diff x y point_list big.pix small.pix := by
    rw [pre_counts]
    exact List.length_pos_iff_ne_nil.mpr hne
  rw [pre_random_match, decide_eq_true_iff, ge_iff_le,
    one_le_similarity_iff hd]
  exact hdiff

theorem accept_one_iff (small big : Img) (point_list : List (ℕ × ℕ))
    (p : ℕ × ℕ) (h1 : 1 ≤ small.width) (h2 : 1 ≤ small.height)
    (hb : ∀ q ∈ point_list, q.1 < small.width ∧ q.2 < small.height)
    (hne : point_list ≠ []) :
    accept small big point_list 1 p = identical_at p.1 p.2 small big := by
  cases hid : identical_at p.1 p.2 small big with
  | true =>
    rw [accept, pre_random_match_one_of_identical p.1 p.2 point_list small big hb hne hid,
      Bool.true_and]
    exact (check_match_one_iff p.1 p.2 small big h1 h2).mpr hid
  | false =>
    rw [accept]
    have hc : check_match p.1 p.2 small big.pix small.pix 1 = false := by
      cases hcm : check_match p.1 p.2 small big.pix small.pix 1 with
      | true =>
        rw [(check_match_one_iff p.1 p.2 small big h1 h2).mp hcm] at hid
        cases hid
      | false => rfl
    rw [hc, Bool.and_false]

theorem pre_random_match_gt_one (x y : ℕ) (point_list : List (ℕ × ℕ))
    (bdata sdata : ℕ → ℕ → Pixel) {rate : ℚ} (h : 1 < rate) :
    pre_random_match x y point_list bdata sdata rate = false := by
  rw [pre_random_match]
  apply decide_eq_false
  intro hge
  have := similarity_le_one (pre_same x y point_list bdata sdata)
    (pre_diff x y point_list bdata sdata)
  have := ge_iff_le.mp hge
  linarith

theorem pre_random_point_length (small : Img) (rng : ℕ → ℕ) :
    10 ≤ (pre_random_point small rng).length ∧
      (pre_random_point small rng).length < 20 := by
  rw [pre_random_point]
  simp only [List.length_map, List.length_range]
  rw [randrange]
  have : rng 0 % (20 - 10) < 10 := Nat.mod_lt _ (by norm_num)
  omega

theorem pre_random_point_ne_nil (small : Img) (rng : ℕ → ℕ) :
    pre_random_point small rng ≠ [] := by
  have := (pre_random_point_length small rng).1
  intro h
  rw [h] at this
  simp at this

theorem pre_random_point_bounds (small : Img) (rng : ℕ → ℕ)
    (h1 : 1 ≤ small.width) (h2 : 1 ≤ small.height) :
    ∀ q ∈ pre_random_point small rng,
      q.1 < small.width ∧ q.2 < small.height := by
  intro q hq
  rw [pre_random_point, List.mem_map] at hq
  obtain ⟨k, _, rfl⟩ := hq
  constructor
  · show randrange 0 small.width (rng (2 * k + 1)) < small.width
    rw [randrange, Nat.sub_zero, Nat.zero_add]
    exact Nat.mod_lt _ h1
  · show randrange 0 small.height (rng (2 * k + 2)) < small.height
    rw [randrange, Nat.sub_zero, Nat.zero_add]
    exact Nat.mod_lt _ h2

theorem mem_candidates {small big : Img} {p : ℕ × ℕ} :
    p ∈ candidates small big ↔
      p.1 < big.width - small.width ∧ p.2 < big.height - small.height := by
  simp only [candidates, List.mem_flatMap, List.mem_map, List.mem_range]
  constructor
  · rintro ⟨x, hx, y, hy, rfl⟩; exact ⟨hx, hy⟩
  · rintro ⟨hx, hy⟩; exact ⟨p.1, hx, p.2, hy, rfl⟩

theorem findSome?_nested {γ : Type} (X Y : List ℕ) (f : ℕ × ℕ → Option γ) :
    (X.findSome? fun x => Y.findSome? fun y => f (x, y)) =
      (X.flatMap fun x => Y.map fun y => (x, y)).findSome? f := by
  induction X with
  | nil => rfl
  | cons a X ih =>
    rw [List.flatMap_cons, List.findSome?_append, List.findSome?_cons]
    have hmap : (Y.map fun y => (a, y)).findSome? f =
        Y.findSome? fun y => f (a, y) := by
      rw [List.findSome?_map]
      rfl
    rw [hmap]
    cases h : Y.findSome? fun y => f (a, y) with
    | none => rw [ih, Option.none_or]
    | some v => rfl

theorem findSome?_guard {α β : Type} (p : α → Bool) (g : α → β) :
    ∀ l : List α,
      (l.findSome? fun a => if p a then some (g a) else none) =
        (l.find? p).map g
  | [] => rfl
  | a :: l => by
    rw [List.findSome?_cons, List.find?_cons]
    cases h : p a with
    | true => simp
    | false => simp [findSome?_guard p g l]

theorem filterMap_guard {α β : Type} (p : α → Bool) (g : α → β) :
    ∀ l : List α,
      (l.filterMap fun a => if p a then some (g a) else none) =
        (l.filter p).map g
  | [] => rfl
  | a :: l => by
    rw [List.filterMap_cons, List.filter_cons]
    cases h : p a with
    | true => simp [filterMap_guard p g l]
    | false => simp [filterMap_guard p g l]

theorem find?_congr_mem {α : Type} {p q : α → Bool} :
    ∀ {l : List α}, (∀ a ∈ l, p a = q a) → l.find? p = l.find? q
  | [], _ => rfl
  | a :: l, h => by
    rw [List.find?_cons, List.find?_cons, h a (List.mem_cons_self a l)]
    cases q a with
    | true => rfl
    | false => exact find?_congr_mem fun b hb => h b (List.mem_cons_of_mem a hb)

theorem find?_eq_head?_filter {α : Type} (p : α → Bool) :
    ∀ l : List α, l.find? p = (l.filter p).head?
  | [] => rfl
  | a :: l => by
    rw [List.find?_cons, List.filter_cons]
    cases h : p a with
    | true => rfl
    | false => exact find?_eq_head?_filter p l

theorem scan_first_eq_find (small big : Img) (point_list : List (ℕ × ℕ))
    (rate : ℚ) :
    scan_first small big point_list rate =
      ((candidates small big).find? (accept small big point_list rate)).map
        (center small) := by
  have hpoint : ∀ x y : ℕ,
      (if pre_random_match x y point_list big.pix small.pix rate then
        if check_match x y small big.pix small.pix rate then
          some (x + small.width / 2, y + small.height / 2)
        else none
      else none) =
      (if accept small big point_list rate (x, y) then
        some (center small (x, y)) else none) := by
    intro x y
    rw [accept, center]
    cases hp : pre_random_match x y point_list big.pix small.pix rate with
    | true =>
      cases hc : check_match x y small big.pix small.pix rate with
      | true => simp [hp, hc]
      | false => simp [hp, hc]
    | false => simp [hp]
  calc scan_first small big point_list rate
      = (List.range (big.width - small.width)).findSome? (fun x =>
          (List.range (big.height - small.height)).findSome? (fun y =>
            if accept small big point_list rate (x, y) then
              some (center small (x, y)) else none)) := by
        unfold scan_first
        simp only [hpoint]
    _ = (candidates small big).findSome?
          (fun p => if accept small big point_list rate p then
            some (center small p) else none) :=
        findSome?_nested (List.range (big.width - small.width))
          (List.range (big.height - small.height))
          (fun p => if accept small big point_list rate p then
            some (center small p) else none)
    _ = ((candidates small big).find? (accept small big point_list rate)).map
          (center small) :=
        findSome?_guard (accept small big point_list rate) (center small)
          (candidates small big)

theorem image_center_eq_scan_first (small big : Img) (rate : ℚ)
    (rng : ℕ → ℕ) :
    image_center_by_rgb small big rate rng =
      scan_first small big (pre_random_point small rng) rate := rfl

theorem image_center_eq_find (small big : Img) (rate : ℚ) (rng : ℕ → ℕ) :
    image_center_by_rgb small big rate rng =
      ((candidates small big).find?
        (accept small big (pre_random_point small rng) rate)).map
        (center small) := by
  rw [image_center_eq_scan_first, scan_first_eq_find]

theorem match_attempts_none {m : ℕ → Option Point} {tmo : ℕ → Bool}
    (hm : ∀ k, m k = none) :
    ∀ fuel k, (match_attempts m tmo fuel k).1 = none := by
  intro fuel
  induction fuel with
  | zero => intro k; rfl
  | succ fuel ih =>
    intro k
    rw [match_attempts, hm k]
    by_cases h : tmo k = true
    · simp [h]
    · simp only [Bool.not_eq_true] at h
      simp [h, ih (k + 1)]

theorem match_attempts_all_none (tmo : ℕ → Bool) :
    ∀ fuel k, (∀ j, tmo j = false) →
      match_attempts (fun _ => none) tmo fuel k = (none, fuel) := by
  intro fuel
  induction fuel with
  | zero => intro k _; rfl
  | succ fuel ih =>
    intro k htmo
    rw [match_attempts]
    simp [htmo k, ih (k + 1) htmo]

theorem find_image_templates_none {m : String → ℕ → Option Point}
    {tmo : String → ℕ → Bool} {fuel : ℕ}
    (hm : ∀ w k, m w k = none) :
    ∀ ws : List String, (find_image_templates m tmo fuel ws).1 = none := by
  intro ws
  induction ws with
  | nil => rfl
  | cons w ws ih =>
    rw [find_image_templates]
    have h := @match_attempts_none (m w) (tmo w) (hm w) fuel 0
    cases hr : (match_attempts (m w) (tmo w) fuel 0).1 with
    | none => simp [hr, ih]
    | some p => rw [hr] at h; cases h

theorem find_image_templates_all_none (fuel : ℕ) :
    ∀ ws : List String,
      find_image_templates (fun _ _ => none) (fun _ _ => false) fuel ws =
        (none, ws.length * fuel) := by
  intro ws
  induction ws with
  | nil => simp [find_image_templates]
  | cons w ws ih =>
    rw [find_image_templates]
    rw [match_attempts_all_none (fun _ => false) fuel 0 (fun _ => rfl)]
    simp only [ih]
    simp [List.length_cons]
    ring

/-! ## Concrete instances used by witnesses and counterexamples -/

/-- A 1×1 all-black template. -/
def tpl1 : Img := ⟨1, 1, fun _ _ => (0, 0, 0)⟩

/-- A 3×2 all-black screen: the template `tpl1` is pixel-identical at every
scanned placement. -/
def scr_const : Img := ⟨3, 2, fun _ _ => (0, 0, 0)⟩

/-- A 3×2 screen on which `tpl1` is pixel-identical only at placement
`(1, 0)`. -/
def scr_uniq : Img := ⟨3, 2, fun x y => if x = 1 ∧ y = 0 then (0, 0, 0) else (1, 1, 1)⟩

/-- A 3×2 all-white screen: `tpl1` matches nowhere. -/
def scr_mis : Img := ⟨3, 2, fun _ _ => (1, 1, 1)⟩

/-- A 2×1 template with the same width as `scr_edge`. -/
def tpl_w : Img := ⟨2, 1, fun _ _ => (0, 0, 0)⟩

/-- A 2×5 screen, as wide as `tpl_w`. -/
def scr_edge : Img := ⟨2, 5, fun _ _ => (0, 0, 0)⟩

/-- The constant-zero raw random stream. -/
def rng0 : ℕ → ℕ := fun _ => 0

/-! ## Claims -/

/-- The x-major, y-minor visit order on placements: `p` is scanned strictly
before `q`. -/
def scan_before (p q : ℕ × ℕ) : Prop :=
  p.1 < q.1 ∨ (p.1 = q.1 ∧ p.2 < q.2)

/-- C2: the scan enumerates exactly the placements with
`x < screen.width - template.width` and `y < screen.height - template.height`,
in strict x-major y-minor order, and `image_center_by_rgb` returns the center
`(x + template.width/2, y + template.height/2)` (integer truncation via `ℕ`
division) of the first placement in this order that passes both the
pre-filter and the full verification, or `none` if there is none. -/
theorem claim_C2 (small big : Img) (rate : ℚ) (rng : ℕ → ℕ) :
    (∀ p : ℕ × ℕ, p ∈ candidates small big ↔
      p.1 < big.width - small.width ∧ p.2 < big.height - small.height) ∧
    (candidates small big).Pairwise scan_before ∧
    image_center_by_rgb small big rate rng =
      ((candidates small big).find?
        (accept small big (pre_random_point small rng) rate)).map
        (center small) ∧
    ∀ p : ℕ × ℕ,
      center small p = (p.1 + small.width / 2, p.2 + small.height / 2) := by
  refine ⟨fun p => mem_candidates, ?_,
    image_center_eq_find small big rate rng, fun p => rfl⟩
  rw [candidates, List.pairwise_flatMap]
  constructor
  · intro x _
    rw [List.pairwise_map]
    exact (List.pairwise_lt_range _).imp fun h => Or.inr ⟨rfl, h⟩
  · refine (List.pairwise_lt_range _).imp ?_
    intro a b hab p hp q hq
    rw [List.mem_map] at hp hq
    obtain ⟨y1, _, rfl⟩ := hp
    obtain ⟨y2, _, rfl⟩ := hq
    exact Or.inl hab

/-- C3: when the template width equals the screen width (or the same for
heights), the candidate range on that axis is empty, so the scan tests no
placement and the matcher reports not-found; and on any inputs whatsoever the
placement whose right (resp. bottom) edge would align exactly with the
screen edge is never among the scanned candidates. -/
theorem claim_C3 (small big : Img) (rate : ℚ) (rng : ℕ → ℕ)
    (h : small.width = big.width ∨ small.height = big.height) :
    candidates small big = [] ∧
    image_center_by_rgb small big rate rng = none ∧
    (∀ (s b : Img) (y : ℕ), (b.width - s.width, y) ∉ candidates s b) ∧
    (∀ (s b : Img) (x : ℕ), (x, b.height - s.height) ∉ candidates s b) := by
  have hempty : candidates small big = [] := by
    rw [candidates]
    rcases h with h | h
    · rw [← h, Nat.sub_eq_zero_of_le (le_of_eq rfl)]
      · simp
    · rw [← h, Nat.sub_eq_zero_of_le (le_of_eq rfl)]
      simp
  refine ⟨hempty, ?_, ?_, ?_⟩
  · rw [image_center_eq_find, hempty]
    rfl
  · intro s b y hmem
    exact absurd (mem_candidates.mp hmem).1 (lt_irrefl _)
  · intro s b x hmem
    exact absurd (mem_candidates.mp hmem).2 (lt_irrefl _)

/-- C3 witness: with a 2-wide template and a 2-wide screen the scan is empty
and the matcher returns not-found. -/
theorem claim_C3_witness :
    candidates tpl_w scr_edge = [] ∧
    image_center_by_rgb tpl_w scr_edge 1 rng0 = none ∧
    (∀ (s b : Img) (y : ℕ), (b.width - s.width, y) ∉ candidates s b) ∧
    (∀ (s b : Img) (x : ℕ), (x, b.height - s.height) ∉ candidates s b) :=
  claim_C3 tpl_w scr_edge 1 rng0 (Or.inl rfl)

/-- C4: with `multiple` requested (modelled from the spec, since the local
matcher exposes no `multiple` flag), the matcher does not stop at the first
accepted placement: it returns the centers of ALL accepted placements, in
x-major y-minor scan order; the single-match scan returns exactly the head
of that collection. -/
theorem claim_C4 (small big : Img) (point_list : List (ℕ × ℕ)) (rate : ℚ) :
    image_center_by_rgb_multiple small big point_list rate =
      ((candidates small big).filter (accept small big point_list rate)).map
        (center small) ∧
    ∀ rng : ℕ → ℕ,
      image_center_by_rgb small big rate rng =
        (image_center_by_rgb_multiple small big (pre_random_point small rng)
          rate).head? := by
  have hpoint : ∀ (pl : List (ℕ × ℕ)) (x y : ℕ),
      (if pre_random_match x y pl big.pix small.pix rate then
        if check_match x y small big.pix small.pix rate then
          some (x + small.width / 2, y + small.height / 2)
        else none
      else none) =
      (if accept small big pl rate (x, y) then
        some (center small (x, y)) else none) := by
    intro pl x y
    rw [accept, center]
    cases hp : pre_random_match x y pl big.pix small.pix rate with
    | true =>
      cases hc : check_match x y small big.pix small.pix rate with
      | true => simp [hp, hc]
      | false => simp [hp, hc]
    | false => simp [hp]
  have hmain : ∀ pl : List (ℕ × ℕ),
      image_center_by_rgb_multiple small big pl rate =
        ((candidates small big).filter (accept small big pl rate)).map
          (center small) := by
    intro pl
    calc image_center_by_rgb_multiple small big pl rate
        = (List.range (big.width - small.width)).flatMap (fun x =>
            (List.range (big.height - small.height)).filterMap (fun y =>
              if accept small big pl rate (x, y) then
                some (center small (x, y)) else none)) := by
          unfold image_center_by_rgb_multiple
          simp only [hpoint pl]
      _ = (List.range (big.width - small.width)).flatMap (fun x =>
            ((List.range (big.height - small.height)).map
              (fun y => (x, y))).filterMap (fun p =>
                if accept small big pl rate p then
                  some (center small p) else none)) := by
          congr 1
          funext x
          rw [List.filterMap_map]
          rfl
      _ = (candidates small big).filterMap (fun p =>
            if accept small big pl rate p then
              some (center small p) else none) :=
          (List.filterMap_flatMap _ _ _).symm
      _ = ((candidates small big).filter (accept small big pl rate)).map
            (center small) :=
          filterMap_guard _ _ _
  refine ⟨hmain point_list, ?_⟩
  intro rng
  rw [image_center_eq_find, hmain (pre_random_point small rng),
    find?_eq_head?_filter, ← List.head?_map]

/-- C5: rate monotonicity: if a placement is accepted at rate `rate` — by the
pre-filter, by the full verification, or by both phases together — then it is
also accepted at every rate `r2 ≤ rate`: the same/diff counters are unchanged
and only the threshold comparison varies. -/
theorem claim_C5 (x y : ℕ) (small big : Img) (point_list : List (ℕ × ℕ))
    (bdata sdata : ℕ → ℕ → Pixel) (rate r2 : ℚ) (hr : r2 ≤ rate) :
    (check_match x y small bdata sdata rate = true →
      check_match x y small bdata sdata r2 = true) ∧
    (pre_random_match x y point_list bdata sdata rate = true →
      pre_random_match x y point_list bdata sdata r2 = true) ∧
    (∀ p : ℕ × ℕ, accept small big point_list rate p = true →
      accept small big point_list r2 p = true) := by
  have hmono : ∀ a b : ℕ, decide (similarity a b ≥ rate) = true →
      decide (similarity a b ≥ r2) = true := by
    intro a b h
    exact decide_eq_true (le_trans hr (of_decide_eq_true h))
  refine ⟨hmono _ _, hmono _ _, ?_⟩
  intro p hp
  rw [accept, Bool.and_eq_true] at hp
  rw [accept, Bool.and_eq_true]
  exact ⟨hmono _ _ hp.1, hmono _ _ hp.2⟩

/-- C5 witness: the all-black template accepted at rate 1 on the all-black
screen is also accepted at rate 0. -/
theorem claim_C5_witness :
    (check_match 0 0 tpl1 scr_const.pix tpl1.pix 1 = true →
      check_match 0 0 tpl1 scr_const.pix tpl1.pix 0 = true) ∧
    (pre_random_match 0 0 [(0, 0)] scr_const.pix tpl1.pix 1 = true →
      pre_random_match 0 0 [(0, 0)] scr_const.pix tpl1.pix 0 = true) ∧
    (∀ p : ℕ × ℕ, accept tpl1 scr_const [(0, 0)] 1 p = true →
      accept tpl1 scr_const [(0, 0)] 0 p = true) :=
  claim_C5 0 0 tpl1 scr_const [(0, 0)] scr_const.pix tpl1.pix 1 0 (by decide)

/-- C6: the sampler draws a count from `[10, 20)` and point coordinates from
`[0, width) × [0, height)`; each draw of `randrange lo hi` is uniform (one
full period of raw stream values maps bijectively onto `[lo, hi)`, and the
map is periodic) and the `k`-th point consumes its own dedicated pair of raw
draws (independence across points); the sample list is generated exactly
once, before the placement scan, and that same list is reused for every
candidate placement of the call. -/
theorem claim_C6 (small : Img) (rng : ℕ → ℕ)
    (h1 : 1 ≤ small.width) (h2 : 1 ≤ small.height) :
    (10 ≤ (pre_random_point small rng).length ∧
      (pre_random_point small rng).length < 20) ∧
    (∀ q ∈ pre_random_point small rng,
      q.1 < small.width ∧ q.2 < small.height) ∧
    (∀ lo hi : ℕ, lo < hi →
      (List.range (hi - lo)).map (randrange lo hi) = List.range' lo (hi - lo) ∧
      ∀ r : ℕ, randrange lo hi (r + (hi - lo)) = randrange lo hi r) ∧
    (∀ k : ℕ, k < (pre_random_point small rng).length →
      (pre_random_point small rng)[k]? =
        some (randrange 0 small.width (rng (2 * k + 1)),
          randrange 0 small.height (rng (2 * k + 2)))) ∧
    (∀ (big : Img) (rate : ℚ),
      image_center_by_rgb small big rate rng =
        scan_first small big (pre_random_point small rng) rate) := by
  refine ⟨pre_random_point_length small rng,
    pre_random_point_bounds small rng h1 h2, ?_, ?_, fun big rate => rfl⟩
  · intro lo hi _
    constructor
    · rw [List.range'_eq_map_range]
      refine List.map_congr_left fun r hr => ?_
      rw [List.mem_range] at hr
      rw [randrange, Nat.mod_eq_of_lt hr]
    · intro r
      rw [randrange, randrange, Nat.add_mod_right]
  · intro k hk
    unfold pre_random_point at hk ⊢
    simp only [List.length_map, List.length_range] at hk
    rw [List.getElem?_map, List.getElem?_range hk]
    rfl

/-- C6 witness: the sampler contract holds for the all-black 1×1 template
and the constant-zero stream. -/
theorem claim_C6_witness :
    (10 ≤ (pre_random_point tpl1 rng0).length ∧
      (pre_random_point tpl1 rng0).length < 20) ∧
    (∀ q ∈ pre_random_point tpl1 rng0,
      q.1 < tpl1.width ∧ q.2 < tpl1.height) :=
  ⟨(claim_C6 tpl1 rng0 (by decide) (by decide)).1,
    (claim_C6 tpl1 rng0 (by decide) (by decide)).2.1⟩

/-- C10: totality of the matcher under its precondition: for a nonempty
template on a screen at least as large, every screen access `(x+dx, y+dy)`
and template access `(dx, dy)` of both the full verification grid and the
pre-filter sample set stays in bounds at every scanned placement, and both
similarity denominators are positive (the full grid has `width*height ≥ 1`
pairs, the sample set has at least 10 points). -/
theorem claim_C10 (small big : Img) (rng : ℕ → ℕ)
    (h1 : 1 ≤ small.width) (h2 : 1 ≤ small.height)
    (h3 : small.width ≤ big.width) (h4 : small.height ≤ big.height) :
    (∀ p ∈ candidates small big, ∀ q ∈ match_pairs small,
      p.1 + q.1 < big.width ∧ p.2 + q.2 < big.height) ∧
    (∀ q ∈ match_pairs small, q.1 < small.width ∧ q.2 < small.height) ∧
    (∀ p ∈ candidates small big, ∀ q ∈ pre_random_point small rng,
      p.1 + q.1 < big.width ∧ p.2 + q.2 < big.height) ∧
    (∀ q ∈ pre_random_point small rng,
      q.1 < small.width ∧ q.2 < small.height) ∧
    (∀ x y : ℕ, 0 < check_same x y small big.pix small.pix +
      check_diff x y small big.pix small.pix) ∧
    (∀ x y : ℕ, 10 ≤ pre_same x y (pre_random_point small rng) big.pix small.pix +
      pre_diff x y (pre_random_point small rng) big.pix small.pix) := by
  have hb := pre_random_point_bounds small rng h1 h2
  have hacc : ∀ p ∈ candidates small big, ∀ a b : ℕ,
      a < small.width → b < small.height →
      p.1 + a < big.width ∧ p.2 + b < big.height := by
    intro p hp a b ha hbb
    rcases mem_candidates.mp hp with ⟨hx, hy⟩
    omega
  refine ⟨?_, fun q hq => mem_match_pairs.mp hq, ?_, hb, ?_, ?_⟩
  · intro p hp q hq
    rcases mem_match_pairs.mp hq with ⟨ha, hb2⟩
    exact hacc p hp q.1 q.2 ha hb2
  · intro p hp q hq
    rcases hb q hq with ⟨ha, hb2⟩
    exact hacc p hp q.1 q.2 ha hb2
  · intro x y
    rw [check_counts]
    exact Nat.mul_pos h1 h2
  · intro x y
    rw [pre_counts]
    exact (pre_random_point_length small rng).1

/-- C10 witness: in-bounds access and positive denominators at the concrete
1×1 template on the 3×2 screen. -/
theorem claim_C10_witness :
    (∀ p ∈ candidates tpl1 scr_const, ∀ q ∈ match_pairs tpl1,
      p.1 + q.1 < scr_const.width ∧ p.2 + q.2 < scr_const.height) ∧
    (∀ x y : ℕ, 0 < check_same x y tpl1 scr_const.pix tpl1.pix +
      check_diff x y tpl1 scr_const.pix tpl1.pix) :=
  ⟨(claim_C10 tpl1 scr_const rng0 (by decide) (by decide) (by decide)
      (by decide)).1,
    (claim_C10 tpl1 scr_const rng0 (by decide) (by decide) (by decide)
      (by decide)).2.2.2.2.1⟩

/-- C1 counterexample: on the all-black 3×2 screen with the all-black 1×1
template, placement `(1, 0)` is inside the scanned range and pixel-identical,
yet the matcher at rate 1 does not return the center of that placement
`(1 + 1/2, 0 + 1/2) = (1, 0)`: it returns the center of the earlier identical
placement `(0, 0)`.  The universal quantification of the claim over every
identical placement therefore fails. -/
theorem claim_C1_counterexample :
    identical_at 1 0 tpl1 scr_const = true ∧
    1 < scr_const.width - tpl1.width ∧
    0 < scr_const.height - tpl1.height ∧
    image_center_by_rgb tpl1 scr_const 1 rng0 ≠
      some (1 + tpl1.width / 2, 0 + tpl1.height / 2) := by
  refine ⟨by decide, by decide, by decide, ?_⟩
  have h := image_center_eq_find tpl1 scr_const 1 rng0
  have ha : ∀ p ∈ candidates tpl1 scr_const,
      accept tpl1 scr_const (pre_random_point tpl1 rng0) 1 p =
        identical_at p.1 p.2 tpl1 scr_const :=
    fun p _ => accept_one_iff tpl1 scr_const _ p (by decide) (by decide)
      (pre_random_point_bounds tpl1 rng0 (by decide) (by decide))
      (pre_random_point_ne_nil tpl1 rng0)
  rw [find?_congr_mem ha] at h
  rw [h]
  decide

/-- C1 amended: at rate 1, if some placement inside the scanned candidate
range is pixel-identical to the template, then — regardless of the random
stream feeding the pre-filter — the matcher succeeds and returns the center
of the FIRST pixel-identical placement in scan order (which is that
center of that placement whenever the identical placement is unique). -/
theorem claim_C1_amended (small big : Img) (rng : ℕ → ℕ) (x0 y0 : ℕ)
    (h1 : 1 ≤ small.width) (h2 : 1 ≤ small.height)
    (hx : x0 < big.width - small.width)
    (hy : y0 < big.height - small.height)
    (hid : identical_at x0 y0 small big = true) :
    image_center_by_rgb small big 1 rng =
      ((candidates small big).find? fun p =>
        identical_at p.1 p.2 small big).map (center small) ∧
    ((candidates small big).find? fun p =>
      identical_at p.1 p.2 small big).isSome = true := by
  have ha : ∀ p ∈ candidates small big,
      accept small big (pre_random_point small rng) 1 p =
        identical_at p.1 p.2 small big :=
    fun p _ => accept_one_iff small big _ p h1 h2
      (pre_random_point_bounds small rng h1 h2)
      (pre_random_point_ne_nil small rng)
  constructor
  · rw [image_center_eq_find, find?_congr_mem ha]
  · exact List.find?_isSome.mpr ⟨(x0, y0), mem_candidates.mpr ⟨hx, hy⟩, hid⟩

/-- C1 witness: on the screen where the template is identical only at
`(1, 0)`, the amended statement applies with every hypothesis discharged
concretely. -/
theorem claim_C1_witness :
    image_center_by_rgb tpl1 scr_uniq 1 rng0 =
      ((candidates tpl1 scr_uniq).find? fun p =>
        identical_at p.1 p.2 tpl1 scr_uniq).map (center tpl1) ∧
    ((candidates tpl1 scr_uniq).find? fun p =>
      identical_at p.1 p.2 tpl1 scr_uniq).isSome = true :=
  claim_C1_amended tpl1 scr_uniq rng0 1 0 (by decide) (by decide) (by decide)
    (by decide) (by decide)

/-- C7: the region matcher never raises for "no placement found": when no
candidate passes both phases it returns the absent result `none` (Python
`False`); and the polling controller is what converts an exhausted search —
every attempt of every template unsuccessful — into the raised
`TemplateElementNotFound` whose arguments carry every attempted template. -/
theorem claim_C7 :
    (∀ (small big : Img) (rate : ℚ) (rng : ℕ → ℕ),
      (∀ p ∈ candidates small big,
        accept small big (pre_random_point small rng) rate p = false) →
      image_center_by_rgb small big rate rng = none) ∧
    (∀ (m : String → ℚ → ℕ → Option Point) (tmo : String → ℕ → Bool)
      (widget : List String) (rate : Option ℚ) (mmn : Option ℤ)
      (cf : PollConf),
      ¬ effective_retry mmn cf < 0 →
      (∀ w k, m w (rate.getD cf.image_rate) k = none) →
      (find_image m tmo widget rate mmn cf).1 =
        Except.error (FindImageError.templateElementNotFound widget)) := by
  constructor
  · intro small big rate rng hnone
    rw [image_center_eq_find]
    have hfind : (candidates small big).find?
        (accept small big (pre_random_point small rng) rate) = none := by
      rw [List.find?_eq_none]
      intro p hp
      rw [hnone p hp]
      simp
    rw [hfind]
    rfl
  · intro m tmo widget rate mmn cf hret hm
    have hall := @find_image_templates_none
      (fun w k => m w (rate.getD cf.image_rate) k) tmo
      ((effective_retry mmn cf).toNat + 1) (fun w k => hm w k) widget
    simp only [find_image, if_neg hret]
    cases hres : (find_image_templates
        (fun w k => m w (rate.getD cf.image_rate) k) tmo
        ((effective_retry mmn cf).toNat + 1) widget).1 with
    | none => simp [hres]
    | some p => rw [hres] at hall; cases hall

/-- C7 witness: on a screen where nothing matches (rate 2 exceeds every
similarity) the matcher returns `none`, and the polling controller with an
always-failing matcher ends in `TemplateElementNotFound` naming the
template list. -/
theorem claim_C7_witness :
    image_center_by_rgb tpl1 scr_mis 2 rng0 = none ∧
    (find_image (fun _ _ _ => none) (fun _ _ => false) ["a"] none (some 1)
      ⟨5, 1⟩).1 =
      Except.error (FindImageError.templateElementNotFound ["a"]) :=
  ⟨claim_C7.1 tpl1 scr_mis 2 rng0 (fun p _ => by
      rw [accept, pre_random_match_gt_one p.1 p.2 (pre_random_point tpl1 rng0)
        scr_mis.pix tpl1.pix (by decide : (1:ℚ) < 2), Bool.false_and]),
    claim_C7.2 (fun _ _ _ => none) (fun _ _ => false) ["a"] none (some 1)
      ⟨5, 1⟩ (by decide) (fun _ _ => rfl)⟩

/-- C8 counterexample: with a never-matching matcher, no timeout, a
configured default retry count of 2 and the caller passing
`max_match_number = 0`, `find_image` performs 3 matching attempts — not the
single attempt the claim requires — before raising. -/
theorem claim_C8_counterexample :
    find_image (fun _ _ _ => none) (fun _ _ => false) ["a"] (some 1) (some 0)
      ⟨2, 1⟩ =
      (Except.error (FindImageError.templateElementNotFound ["a"]), 3) ∧
    (3:ℕ) ≠ 1 :=
  ⟨rfl, by decide⟩

/-- C8 amended: passing `max_match_number = 0` does not request a single
attempt: `0` is falsy in the default-substitution idiom
`max_match_number if max_match_number else conf.MAX_MATCH_NUMBER`, so the
configured default retry count is used instead, and (with no match found and
the timeout never exceeded) every template is attempted
`conf.MAX_MATCH_NUMBER + 1` times before `TemplateElementNotFound` is
raised; a single attempt per template happens only when the configured
default is itself 0. -/
theorem claim_C8_amended (cf : PollConf) (rate : Option ℚ) (ws : List String) :
    find_image (fun _ _ _ => none) (fun _ _ => false) ws rate (some 0) cf =
      (Except.error (FindImageError.templateElementNotFound ws),
        ws.length * (cf.max_match_number + 1)) := by
  have heff : effective_retry (some 0) cf = (cf.max_match_number : ℤ) := by
    unfold effective_retry
    simp
  have hneg : ¬ (cf.max_match_number : ℤ) < 0 :=
    not_lt.mpr (Int.natCast_nonneg _)
  simp only [find_image, heff, if_neg hneg]
  rw [find_image_templates_all_none]
  simp

/-- C9 counterexample: an out-of-range rate (2.0, above the valid range
`[0, 1]`) is not rejected eagerly: `find_image` performs two matching
attempts (two captures) and ends with `TemplateElementNotFound`, so no error
is raised before capture/matching work, contradicting the claim. -/
theorem claim_C9_counterexample :
    find_image (fun _ _ _ => none) (fun _ _ => false) ["a"] (some 2) (some 1)
      ⟨5, 1⟩ =
      (Except.error (FindImageError.templateElementNotFound ["a"]), 2) ∧
    (2:ℕ) ≠ 0 :=
  ⟨rfl, by decide⟩

/-- C9 amended: only a negative attempt count is validated eagerly: for any
caller-supplied `max_match_number < 0`, `find_image` raises `ValueError`
with zero matcher invocations (zero captures); the rate is never validated. -/
theorem claim_C9_amended (m : String → ℚ → ℕ → Option Point)
    (tmo : String → ℕ → Bool) (ws : List String) (rate : Option ℚ)
    (v : ℤ) (cf : PollConf) (hv : v < 0) :
    find_image m tmo ws rate (some v) cf =
      (Except.error FindImageError.valueError, 0) := by
  have heff : effective_retry (some v) cf = v := by
    show (if v = 0 then (cf.max_match_number : ℤ) else v) = v
    rw [if_neg (by omega : ¬ v = 0)]
  simp only [find_image, heff, if_pos hv]

/-- C9 witness: `max_match_number = -1` raises `ValueError` with zero
matcher invocations. -/
theorem claim_C9_witness :
    find_image (fun _ _ _ => none) (fun _ _ => false) ["a"] none (some (-1))
      ⟨5, 1⟩ = (Except.error FindImageError.valueError, 0) :=
  claim_C9_amended (fun _ _ _ => none) (fun _ _ => false) ["a"] none (-1)
    ⟨5, 1⟩ (by decide)

end YouquImageCenter
